import Mathlib

/-!
Shallow embedding of `check-cnames` (`src/main.go`), a dangling-CNAME /
subdomain-takeover scanner, together with theorems settling the frozen
claims about it.

Modelling conventions:
* Strings are Lean `String`s; Go's byte-oriented `strings.Contains`,
  `strings.TrimSpace`, `strings.ToLower`, `strings.TrimSuffix` are modelled
  character-wise (faithful on ASCII input, which is what DNS names are).
* The network is abstracted: a DNS exchange is an oracle value
  (`Except String DnsResponse`); per-attempt results of `getCNAME` are an
  oracle `Nat → Except DnsErr String` indexed by attempt number; the
  resolution verifier `resolves` is an oracle `String → Bool`.
* Go map iteration order is unspecified, so `checkVulnerableService` is
  parameterised by the iteration order: a list of (pattern, service) pairs;
  the real runs of the program use some permutation of `vulnerablePatterns`.
* `time.Sleep` calls are recorded as a trace of delay durations (in ms);
  `config.retries` is an `Int` since the `-r` flag accepts negatives.
-/

/-- One Go-map entry order for dns servers / patterns. -/
abbrev PatternTable := List (String × String)

/-- ASCII/Latin-1 white space as recognised by Go's `unicode.IsSpace`
(`\t`, `\n`, `\v`, `\f`, `\r`, space, NEL, NBSP); exotic Unicode space
ranges are out of the modelled input alphabet. -/
def goIsSpace (c : Char) : Bool :=
  c == ' ' || c == '\t' || c == '\n' || c == Char.ofNat 0x0B ||
    c == Char.ofNat 0x0C || c == '\r' || c == Char.ofNat 0x85 || c == Char.ofNat 0xA0

/-- Go `strings.TrimSpace`: drop leading and trailing white space. -/
def trimSpace (s : String) : String :=
  String.mk (((s.data.dropWhile goIsSpace).reverse.dropWhile goIsSpace).reverse)

/-- Go `strings.ToLower` (ASCII range; `Char.toLower` lowers exactly A–Z). -/
def goToLower (s : String) : String :=
  String.mk (s.data.map Char.toLower)

/-- Character-list version of Go `bytes.HasPrefix`: does the second list
start with the first? -/
def leadsWith : List Char → List Char → Bool
  | [], _ => true
  | _ :: _, [] => false
  | p :: ps, c :: cs => p == c && leadsWith ps cs

/-- Does the first list contain the second as a contiguous run? -/
def containsSub : List Char → List Char → Bool
  | hay, pat =>
    if leadsWith pat hay then true
    else
      match hay with
      | [] => false
      | _ :: t => containsSub t pat

/-- Go `strings.Contains s sub`. -/
def strContains (s sub : String) : Bool :=
  containsSub s.data sub.data

/-- Go `strings.TrimSuffix s "."`: remove one trailing dot if present. -/
def trimSuffixDot (s : String) : String :=
  match s.data.reverse with
  | '.' :: rest => String.mk rest.reverse
  | _ => s

/-- The hardcoded `vulnerablePatterns` table from `checkVulnerableService`
(`src/main.go` lines 219–265), in source-text order.  The Go value is a map,
so the program iterates it in an unspecified order; runs see some
permutation of this list. -/
def vulnerablePatterns : PatternTable :=
  [(".s3.amazonaws.com", "AWS S3"),
   (".s3-website", "AWS S3"),
   (".s3.dualstack", "AWS S3"),
   (".cloudfront.net", "AWS CloudFront"),
   (".elasticbeanstalk.com", "AWS Elastic Beanstalk"),
   (".herokuapp.com", "Heroku"),
   (".herokudns.com", "Heroku"),
   (".wordpress.com", "WordPress"),
   (".pantheonsite.io", "Pantheon"),
   (".github.io", "GitHub Pages"),
   (".gitlab.io", "GitLab Pages"),
   (".surge.sh", "Surge.sh"),
   (".bitbucket.io", "Bitbucket"),
   (".zendesk.com", "Zendesk"),
   (".desk.com", "Desk.com"),
   (".fastly.net", "Fastly"),
   (".feedpress.me", "FeedPress"),
   (".ghost.io", "Ghost"),
   (".helpjuice.com", "Helpjuice"),
   (".helpscoutdocs.com", "HelpScout"),
   (".azurewebsites.net", "Azure"),
   (".cloudapp.azure.com", "Azure"),
   (".cloudapp.net", "Azure"),
   (".trafficmanager.net", "Azure Traffic Manager"),
   (".blob.core.windows.net", "Azure Blob"),
   (".azureedge.net", "Azure CDN"),
   (".azure-api.net", "Azure API Management"),
   (".azurefd.net", "Azure Front Door"),
   (".statuspage.io", "StatusPage"),
   (".uservoice.com", "UserVoice"),
   (".smartling.com", "Smartling"),
   (".tictail.com", "Tictail"),
   (".campaignmonitor.com", "Campaign Monitor"),
   (".createsend.com", "CreateSend"),
   (".acquia-sites.com", "Acquia"),
   (".proposify.biz", "Proposify"),
   (".simplebooklet.com", "Simplebooklet"),
   (".getresponse.com", "GetResponse"),
   (".vend.com", "Vend"),
   (".jetbrains.space", "JetBrains Space"),
   (".myjetbrains.com", "JetBrains"),
   (".netlify.app", "Netlify"),
   (".netlify.com", "Netlify"),
   (".vercel.app", "Vercel"),
   (".now.sh", "Vercel")]

/-- The range-loop body of `checkVulnerableService`: first entry whose
pattern occurs in `c` wins; empty string when none does. -/
def firstServiceMatch (c : String) : PatternTable → String
  | [] => ""
  | (pat, service) :: rest =>
    if strContains c pat then service else firstServiceMatch c rest

/-- `checkVulnerableService` (`src/main.go` lines 215–274), parameterised by
the map-iteration order actually seen by the `for ... range` loop. -/
def checkVulnerableService (order : PatternTable) (cname : String) : String :=
  firstServiceMatch (goToLower cname) order

/-- Modelled from the spec: the Vulnerability Classifier contract of §4.5,
stated in the spec's own words — lowercase the target, scan the table in
order, return the service of the first pattern contained as a substring,
else empty.  Used only as the refinement target for the classifier. -/
def specFirstMatch (order : PatternTable) (target : String) : String :=
  match order.find? (fun e => strContains (goToLower target) e.1) with
  | some e => e.2
  | none => ""

/-- A DNS resource record, as far as `getCNAME`'s type switches look at it:
a CNAME with its target, an A record, an SOA record, or anything else. -/
inductive RR where
  | cname (target : String)
  | a
  | soa
  | other
deriving DecidableEq

/-- A successfully received DNS message: answer section and authority
(`r.Ns`) section. -/
structure DnsResponse where
  answer : List RR
  ns : List RR
deriving DecidableEq

/-- The error value of `getCNAME`: `fmt.Errorf("DNS query failed: %w", err)`
wrapping the transport error. -/
inductive DnsErr where
  | queryFailed (msg : String)
deriving DecidableEq

/-- The first answer-loop of `getCNAME` (lines 174–178): target of the first
CNAME record, in answer-section order. -/
def findCNAME : List RR → Option String
  | [] => none
  | RR.cname t :: _ => some t
  | _ :: rest => findCNAME rest

/-- Is this record an A record? (the type assertion `ans.(*dns.A)`). -/
def isA : RR → Bool
  | RR.a => true
  | _ => false

/-- Is this record an SOA record? (the type assertion `ns.(*dns.SOA)`). -/
def isSOA : RR → Bool
  | RR.soa => true
  | _ => false

/-- The second answer-loop of `getCNAME` (lines 181–185). -/
def hasA : List RR → Bool
  | [] => false
  | r :: rest => isA r || hasA rest

/-- The authority-section loop of `getCNAME` (lines 189–193). -/
def hasSOA : List RR → Bool
  | [] => false
  | r :: rest => isSOA r || hasSOA rest

/-- `getCNAME` (`src/main.go` lines 155–197) downstream of the network
exchange, whose outcome is passed in: a transport error is wrapped and
returned;

 otherwise the answer is interpreted — first CNAME target with the
trailing dot trimmed; else empty when an A record answers; else empty when
the authority section holds an SOA; else empty. -/
def getCNAME (exch : Except String DnsResponse) : Except DnsErr String :=
  match exch with
  | Except.error msg => Except.error (DnsErr.queryFailed msg)
  | Except.ok r =>
    match findCNAME r.answer with
    | some t => Except.ok (trimSuffixDot t)
    | none =>
      if hasA r.answer then Except.ok ""
      else if r.ns.length > 0 && hasSOA r.ns then Except.ok ""
      else Except.ok ""

/-- What one call of `getCNAMEWithRetry` did: the returned `(cname, err)`
pair, the number of `getCNAME` attempts made, and the trace of
`time.Sleep` delays (in milliseconds, in order). -/
structure RetryTrace where
  cname : String
  err : Option DnsErr
  attempts : Nat
  delays : List Nat
deriving DecidableEq

/-- The retry loop of `getCNAMEWithRetry` from iteration index `i` with
`fuel` remaining iterations (`fuel` = `retries - i + 1` clamped at zero) and
the current `lastErr`.  `attempt j` is the outcome of the `getCNAME` call of
iteration `j`. -/
def retryAux (attempt : Nat → Except DnsErr String) :
    Nat → Nat → Option DnsErr → RetryTrace
  | _, 0, lastErr => { cname := "", err := lastErr, attempts := 0, delays := [] }
  | i, fuel + 1, _ =>
    match attempt i with
    | Except.ok c => { cname := c, err := none, attempts := 1, delays := [] }
    | Except.error e =>
      let rest := retryAux attempt (i + 1) fuel (some e)
      { cname := rest.cname, err := rest.err, attempts := rest.attempts + 1,
        delays := if fuel == 0 then rest.delays else 100 * (i + 1) :: rest.delays }

/-- `getCNAMEWithRetry` (`src/main.go` lines 137–153): up to `retries + 1`
attempts (`for i := 0; i <= retries; i++`), sleeping `100ms × (i+1)` after
failed attempt `i` whenever `i < retries`; `retries` is the `-r` flag value
and may be negative, in which case the loop body never runs and
`("", nil)` is returned. -/
def getCNAMEWithRetry (retries : Int) (attempt : Nat → Except DnsErr String) :
    RetryTrace :=
  retryAux attempt 0 (retries + 1).toNat none

/-- A result line sent on the `results` channel by `processDomain`. -/
inductive Finding where
  | ok (domain cname : String)
  | dangling (domain cname : String)
  | takeover (domain cname service : String)
deriving DecidableEq

/-- The domain a finding is printed for (the first `%s` of its format). -/
def findingDomain : Finding → String
  | Finding.ok d _ => d
  | Finding.dangling d _ => d
  | Finding.takeover d _ _ => d

/-- A diagnostic line written to stderr by `processDomain`. -/
inductive Diag where
  | queryError (domain : String) (e : DnsErr)
  | noCNAME (domain : String)
deriving DecidableEq

/-- `processDomain` (`src/main.go` lines 106–135): the findings sent to the
results channel and the stderr diagnostics, in order.  `order` is the map
iteration order seen by `checkVulnerableService`, `attempt` the per-attempt
lookup oracle, `resolvesFn` the resolution-verifier oracle. -/
def processDomain (retries : Int) (verbose : Bool) (order : PatternTable)
    (attempt : Nat → Except DnsErr String) (resolvesFn : String → Bool)
    (domain : String) : List Finding × List Diag :=
  let t := getCNAMEWithRetry retries attempt
  match t.err with
  | some e => ([], if verbose then [Diag.queryError domain e] else [])
  | none =>
    if t.cname = "" then
      ([], if verbose then [Diag.noCNAME domain] else [])
    else if !resolvesFn t.cname then
      let service := checkVulnerableService order t.cname
      (Finding.dangling domain t.cname ::
        (if service ≠ "" then [Finding.takeover domain t.cname service] else []),
       [])
    else if verbose then
      ([Finding.ok domain t.cname], [])
    else
      ([], [])

/-- A unit of work produced by the dispatcher loop in `main`. -/
structure Job where
  domain : String
  server : String
deriving DecidableEq

/-- The stdin-scanning loop of `main` (`src/main.go` lines 77–87), from the
`k`-th random draw on: each line is trimmed and lowercased, empty results
are skipped, and each surviving line becomes one `Job` whose server is
`resolvers[rand.Intn(len(resolvers))]` — the random draws are the oracle
`pick`, reduced mod the pool size as `rand.Intn` guarantees. -/
def dispatchFrom (pool : List String) (pick : Nat → Nat) :
    Nat → List String → List Job
  | _, [] => []
  | k, line :: rest =>
    let domain := goToLower (trimSpace line)
    if domain = "" then dispatchFrom pool pick k rest
    else
      { domain := domain, server := pool.getD (pick k % pool.length) "" } ::
        dispatchFrom pool pick (k + 1) rest

/-- The whole dispatcher loop of `main` over the input lines. -/
def dispatchJobs (pool : List String) (pick : Nat → Nat)
    (lines : List String) : List Job :=
  dispatchFrom pool pick 0 lines

/-- The normalisation `main` applies to an input line. -/
def normalizeLine (line : String) : String :=
  goToLower (trimSpace line)


theorem retryAux_fail (attempt : Nat → Except DnsErr String) (errs : Nat → DnsErr)
    (h : ∀ j, attempt j = Except.error (errs j)) :
    ∀ fuel i lastErr, 0 < fuel →
      retryAux attempt i fuel lastErr =
        { cname := "", err := some (errs (i + fuel - 1)), attempts := fuel,
          delays := (List.range (fuel - 1)).map (fun j => 100 * (i + 1 + j)) } := by
  intro fuel
  induction fuel with
  | zero => intro i lastErr h0; exact absurd h0 (by omega)
  | succ f ih =>
    intro i lastErr _
    rw [retryAux, h i]
    dsimp only
    cases f with
    | zero => simp [retryAux]
    | succ f' =>
      rw [ih (i + 1) (some (errs i)) (by omega)]
      simp only [RetryTrace.mk.injEq]
      refine ⟨trivial, ?_, trivial, ?_⟩
      · rw [show i + 1 + (f' + 1) - 1 = i + (f' + 1 + 1) - 1 from by omega]
      · rw [show (f' + 1 == 0) = false from rfl]
        simp only [Nat.add_sub_cancel, List.range_succ_eq_map, List.map_cons, List.map_map,
          Nat.add_zero, Bool.false_eq_true, if_false]
        refine congrArg₂ _ rfl ?_
        refine List.map_congr_left (fun j _ => ?_)
        simp only [Function.comp_apply]
        omega

theorem retryAux_success (attempt : Nat → Except DnsErr String) :
    ∀ fuel i lastErr k c, k < fuel →
      (∀ j, j < k → ∃ e, attempt (i + j) = Except.error e) →
      attempt (i + k) = Except.ok c →
      (retryAux attempt i fuel lastErr).cname = c ∧
      (retryAux attempt i fuel lastErr).err = none ∧
      (retryAux attempt i fuel lastErr).attempts = k + 1 := by
  intro fuel
  induction fuel with
  | zero => intro i lastErr k c hk; exact absurd hk (by omega)
  | succ f ih =>
    intro i lastErr k c hk hfail hok
    cases k with
    | zero =>
      have h0 : attempt i = Except.ok c := by simpa using hok
      rw [retryAux, h0]
      exact ⟨rfl, rfl, rfl⟩
    | succ k' =>
      obtain ⟨e, he⟩ := hfail 0 (by omega)
      have he' : attempt i = Except.error e := by simpa using he
      have ihres := ih (i + 1) (some e) k' c (by omega)
        (fun j hj => by
          obtain ⟨e', he''⟩ := hfail (j + 1) (by omega)
          exact ⟨e', by rwa [show i + (j + 1) = i + 1 + j from by omega] at he''⟩)
        (by rwa [show i + (k' + 1) = i + 1 + k' from by omega] at hok)
      rw [retryAux, he']
      dsimp only
      exact ⟨ihres.1, ihres.2.1, by rw [ihres.2.2]⟩

theorem findCNAME_eq_none (l : List RR) (h : findCNAME l = none) :
    ∀ t, RR.cname t ∉ l := by
  induction l with
  | nil => intro t ht; exact absurd ht (List.not_mem_nil _)
  | cons r rest ih =>
    intro t ht
    cases r with
    | cname u => exact absurd h (by simp [findCNAME])
    | a => rcases List.mem_cons.mp ht with h1 | h1
           · exact RR.noConfusion h1
           · exact ih h t h1
    | soa => rcases List.mem_cons.mp ht with h1 | h1
             · exact RR.noConfusion h1
             · exact ih h t h1
    | other => rcases List.mem_cons.mp ht with h1 | h1
               · exact RR.noConfusion h1
               · exact ih h t h1

theorem findCNAME_append (l1 l2 : List RR) (t : String)
    (h : ∀ u, RR.cname u ∉ l1) :
    findCNAME (l1 ++ RR.cname t :: l2) = some t := by
  induction l1 with
  | nil => rfl
  | cons r rest ih =>
    cases r with
    | cname u => exact absurd (List.mem_cons_self _ _) (h u)
    | a => exact ih (fun u hu => h u (List.mem_cons_of_mem _ hu))
    | soa => exact ih (fun u hu => h u (List.mem_cons_of_mem _ hu))
    | other => exact ih (fun u hu => h u (List.mem_cons_of_mem _ hu))

/-! ## Claim theorems -/

/-- C1 (counterexample): the claim as stated is false.  The Go table is a
map, so a run's iteration order is some permutation of `vulnerablePatterns`;
the reverse order is such a permutation, and on the target
`bucket.netlify.app.cloudfront.net` (which contains both `.cloudfront.net`
and `.netlify.app`) the two orders classify to different service names, so
the classifier is not deterministic across runs. -/
theorem checkVulnerableService_order_dependent :
    List.Perm vulnerablePatterns.reverse vulnerablePatterns ∧
    checkVulnerableService vulnerablePatterns "bucket.netlify.app.cloudfront.net" ≠
      checkVulnerableService vulnerablePatterns.reverse
        "bucket.netlify.app.cloudfront.net" := by
  constructor
  · exact List.reverse_perm _
  · decide

/-- C1 (amended): for each fixed iteration order of the table, the
classifier lowercases the target and returns the service name of the first
pattern in that order contained in the target as a substring (empty when
none matches) — this is the spec's contract with "table order" read as "the
iteration order of that run"; it is deterministic only for a fixed order. -/
theorem checkVulnerableService_eq_firstMatch (order : PatternTable) (t : String) :
    checkVulnerableService order t = specFirstMatch order t := by
  unfold checkVulnerableService specFirstMatch
  induction order with
  | nil => rfl
  | cons e rest ih =>
    obtain ⟨pat, svc⟩ := e
    by_cases h : strContains (goToLower t) pat
    · simp [firstServiceMatch, List.find?, h]
    · simp only [firstServiceMatch, List.find?, h, if_false, Bool.false_eq_true] at ih ⊢
      exact ih

/-- C2: when every attempt fails, the retry loop performs exactly
`retries + 1` attempts and sleeps `100ms × i` before attempt `i + 1` for
`1 ≤ i ≤ retries`, with no delay after the final attempt (the trace has
exactly `retries` delays). -/
theorem getCNAMEWithRetry_all_fail_attempts (retries : Nat)
    (attempt : Nat → Except DnsErr String) (errs : Nat → DnsErr)
    (h : ∀ j, attempt j = Except.error (errs j)) :
    (getCNAMEWithRetry retries attempt).attempts = retries + 1 ∧
    (getCNAMEWithRetry retries attempt).delays =
      (List.range retries).map (fun i => 100 * (i + 1)) := by
  have hf : ((retries : Int) + 1).toNat = retries + 1 := by omega
  unfold getCNAMEWithRetry
  rw [hf, retryAux_fail attempt errs h (retries + 1) 0 none (Nat.succ_pos _)]
  refine ⟨rfl, ?_⟩
  simp only [Nat.add_sub_cancel]
  exact List.map_congr_left (fun j _ => by omega)

/-- Witness for C2 at `retries = 2` and a permanently failing oracle:
three attempts, delays 100ms then 200ms. -/
theorem getCNAMEWithRetry_all_fail_attempts_witness :
    (getCNAMEWithRetry ((2 : Nat) : Int)
        (fun _ => Except.error (DnsErr.queryFailed "timeout"))).attempts = 2 + 1 ∧
    (getCNAMEWithRetry ((2 : Nat) : Int)
        (fun _ => Except.error (DnsErr.queryFailed "timeout"))).delays = [100, 200] := by
  have h := getCNAMEWithRetry_all_fail_attempts 2
    (fun _ => Except.error (DnsErr.queryFailed "timeout"))
    (fun _ => DnsErr.queryFailed "timeout") (fun _ => rfl)
  exact ⟨h.1, h.2.trans (by decide)⟩

/-- C3: on a successfully received response the interpretation follows the
stated precedence — the first CNAME's target (trailing dot stripped) when
the answer section holds a CNAME, and the empty string in every other case
(A record, SOA in authority, or empty/ambiguous answer) — and the result is
always a success value, never an error. -/
theorem getCNAME_answer_precedence (r : DnsResponse) :
    (∃ s, getCNAME (Except.ok r) = Except.ok s) ∧
    (∀ t, findCNAME r.answer = some t →
      getCNAME (Except.ok r) = Except.ok (trimSuffixDot t)) ∧
    (findCNAME r.answer = none → getCNAME (Except.ok r) = Except.ok "") ∧
    (findCNAME r.answer = none → ∀ t, RR.cname t ∉ r.answer) := by
  refine ⟨?_, ?_, ?_, fun h => findCNAME_eq_none r.answer h⟩
  · cases hfc : findCNAME r.answer with
    | some t => exact ⟨trimSuffixDot t, by simp [getCNAME, hfc]⟩
    | none =>
      refine ⟨"", ?_⟩
      simp only [getCNAME, hfc]
      split_ifs <;> rfl
  · intro t ht
    simp [getCNAME, ht]
  · intro h
    simp only [getCNAME, h]
    split_ifs <;> rfl

/-- Witness for C3: a response answering with only an A record and an SOA
authority interprets to the empty string (no CNAME), not an error. -/
theorem getCNAME_answer_precedence_witness :
    getCNAME (Except.ok { answer := [RR.a], ns := [RR.soa] }) = Except.ok "" :=
  (getCNAME_answer_precedence { answer := [RR.a], ns := [RR.soa] }).2.2.1 rfl

/-- C10: when the answer section contains several CNAME records, the target
of the first one (in answer-section order) is returned, its trailing dot
stripped; all later CNAME records are ignored (`l2` is arbitrary and may
contain more CNAMEs). -/
theorem getCNAME_first_cname_wins (ns l1 l2 : List RR) (t : String)
    (h : ∀ u, RR.cname u ∉ l1) :
    getCNAME (Except.ok { answer := l1 ++ RR.cname t :: l2, ns := ns }) =
      Except.ok (trimSuffixDot t) := by
  have hfc : findCNAME (l1 ++ RR.cname t :: l2) = some t := findCNAME_append l1 l2 t h
  simp [getCNAME, hfc]

/-- Witness for C10: with two CNAME answers the first target is returned. -/
theorem getCNAME_first_cname_wins_witness :
    getCNAME (Except.ok { answer := [RR.cname "a.example.com.", RR.cname "b.example.com."]
                          ns := [] }) = Except.ok "a.example.com" := by
  have h := getCNAME_first_cname_wins [] [] [RR.cname "b.example.com."] "a.example.com."
    (fun u hu => absurd hu (List.not_mem_nil _))
  exact h

/-- C5: when the lookup succeeds with a non-empty target that does not
resolve, a Dangling finding is always emitted, followed immediately by a
Takeover finding exactly when the classifier returns a non-empty service
name; the matching case yields exactly the two findings Dangling then
Takeover, and nothing is written to the diagnostic stream. -/
theorem processDomain_dangling_then_takeover (retries : Int) (verbose : Bool)
    (order : PatternTable) (attempt : Nat → Except DnsErr String)
    (resolvesFn : String → Bool) (domain c : String)
    (herr : (getCNAMEWithRetry retries attempt).err = none)
    (hc : (getCNAMEWithRetry retries attempt).cname = c)
    (hne : c ≠ "") (hres : resolvesFn c = false) :
    (processDomain retries verbose order attempt resolvesFn domain).1 =
      (if checkVulnerableService order c = "" then [Finding.dangling domain c]
       else [Finding.dangling domain c,
             Finding.takeover domain c (checkVulnerableService order c)]) ∧
    (processDomain retries verbose order attempt resolvesFn domain).2 = [] := by
  by_cases hs : checkVulnerableService order c = "" <;>
    simp [processDomain, herr, hc, hne, hres, hs]

/-- Witness for C5: a dangling `x.github.io` target yields exactly the
Dangling finding followed by the Takeover finding for GitHub Pages. -/
theorem processDomain_dangling_then_takeover_witness :
    (processDomain 0 false vulnerablePatterns (fun _ => Except.ok "x.github.io")
        (fun _ => false) "sub.example.com").1 =
      [Finding.dangling "sub.example.com" "x.github.io",
       Finding.takeover "sub.example.com" "x.github.io" "GitHub Pages"] := by
  have h := processDomain_dangling_then_takeover 0 false vulnerablePatterns
    (fun _ => Except.ok "x.github.io") (fun _ => false) "sub.example.com" "x.github.io"
    (by decide) (by decide) (by decide) rfl
  exact h.1.trans (by decide)

/-- C6: when the lookup succeeds with a non-empty target that does resolve,
an OK finding is emitted exactly when verbose is on, and no finding at all
otherwise. -/
theorem processDomain_ok_iff_verbose (retries : Int) (verbose : Bool)
    (order : PatternTable) (attempt : Nat → Except DnsErr String)
    (resolvesFn : String → Bool) (domain c : String)
    (herr : (getCNAMEWithRetry retries attempt).err = none)
    (hc : (getCNAMEWithRetry retries attempt).cname = c)
    (hne : c ≠ "") (hres : resolvesFn c = true) :
    (processDomain retries verbose order attempt resolvesFn domain).1 =
      (if verbose then [Finding.ok domain c] else []) ∧
    (processDomain retries verbose order attempt resolvesFn domain).2 = [] := by
  cases verbose <;> simp [processDomain, herr, hc, hne, hres]

/-- Witness for C6: a resolving target with verbose on yields exactly the
OK finding; the same call with verbose off yields no finding. -/
theorem processDomain_ok_iff_verbose_witness :
    (processDomain 0 true vulnerablePatterns (fun _ => Except.ok "x.example.net")
        (fun _ => true) "h.example.com").1 = [Finding.ok "h.example.com" "x.example.net"] ∧
    (processDomain 0 false vulnerablePatterns (fun _ => Except.ok "x.example.net")
        (fun _ => true) "h.example.com").1 = [] := by
  have h1 := processDomain_ok_iff_verbose 0 true vulnerablePatterns
    (fun _ => Except.ok "x.example.net") (fun _ => true) "h.example.com" "x.example.net"
    (by decide) (by decide) (by decide) rfl
  have h2 := processDomain_ok_iff_verbose 0 false vulnerablePatterns
    (fun _ => Except.ok "x.example.net") (fun _ => true) "h.example.com" "x.example.net"
    (by decide) (by decide) (by decide) rfl
  exact ⟨h1.1.trans (by decide), h2.1.trans (by decide)⟩

/-- C7: the retry wrapper returns the result of the first successful
attempt without further attempts; when every attempt fails it returns the
error of the last attempt (attempt number `retries`), and the worker then
emits no finding for the domain, writing the query-error diagnostic to the
error stream exactly when verbose is on. -/
theorem getCNAMEWithRetry_success_and_error (retries : Nat)
    (attempt : Nat → Except DnsErr String) :
    (∀ k c, k ≤ retries →
      (∀ j, j < k → ∃ e, attempt j = Except.error e) →
      attempt k = Except.ok c →
      (getCNAMEWithRetry retries attempt).cname = c ∧
      (getCNAMEWithRetry retries attempt).err = none ∧
      (getCNAMEWithRetry retries attempt).attempts = k + 1) ∧
    (∀ errs : Nat → DnsErr, (∀ j, attempt j = Except.error (errs j)) →
      (getCNAMEWithRetry retries attempt).err = some (errs retries) ∧
      ∀ verbose order resolvesFn domain,
        (processDomain retries verbose order attempt resolvesFn domain).1 = [] ∧
        (processDomain retries verbose order attempt resolvesFn domain).2 =
          (if verbose then [Diag.queryError domain (errs retries)] else [])) := by
  have hf : ((retries : Int) + 1).toNat = retries + 1 := by omega
  constructor
  · intro k c hk hfail hok
    unfold getCNAMEWithRetry
    rw [hf]
    exact retryAux_success attempt (retries + 1) 0 none k c (by omega)
      (fun j hj => by simpa using hfail j hj) (by simpa using hok)
  · intro errs herrs
    have herr : (getCNAMEWithRetry retries attempt).err = some (errs retries) := by
      unfold getCNAMEWithRetry
      rw [hf, retryAux_fail attempt errs herrs (retries + 1) 0 none (Nat.succ_pos _)]
      simp
    refine ⟨herr, fun verbose order resolvesFn domain => ?_⟩
    cases verbose <;> simp [processDomain, herr]

/-- Witness for C7: a single immediately successful attempt returns its
CNAME. -/
theorem getCNAMEWithRetry_success_and_error_witness :
    (getCNAMEWithRetry ((0 : Nat) : Int) (fun _ => Except.ok "c.example.net")).cname =
      "c.example.net" :=
  ((getCNAMEWithRetry_success_and_error 0 (fun _ => Except.ok "c.example.net")).1
    0 "c.example.net" (Nat.le_refl 0) (fun j hj => absurd hj (Nat.not_lt_zero j)) rfl).1

/-- C8: every finding `processDomain` sends for a job carries the job's
original (normalized) domain string in its domain field; only the cname
field originates from the resolver. -/
theorem processDomain_domain_invariant (retries : Int) (verbose : Bool)
    (order : PatternTable) (attempt : Nat → Except DnsErr String)
    (resolvesFn : String → Bool) (domain : String) :
    ∀ f ∈ (processDomain retries verbose order attempt resolvesFn domain).1,
      findingDomain f = domain := by
  intro f
  unfold processDomain
  dsimp only
  rcases herr : (getCNAMEWithRetry retries attempt).err with _ | e <;> dsimp only
  · split_ifs with h1 h2 h3 h4 <;> intro hf <;> simp at hf <;>
      rcases hf with rfl | rfl <;> rfl
  · intro hf
    simp at hf

/-- Witness for C8: the OK finding produced for `host.example.com` carries
that very domain. -/
theorem processDomain_domain_invariant_witness :
    findingDomain (Finding.ok "host.example.com" "x.example.net") = "host.example.com" :=
  processDomain_domain_invariant 0 true vulnerablePatterns
    (fun _ => Except.ok "x.example.net") (fun _ => true) "host.example.com"
    (Finding.ok "host.example.com" "x.example.net") (by decide)

/-- C9: with a negative configured retries value the loop body never runs:
zero attempts, no delays, and the Go return `("", nil)` — so the worker
takes the no-CNAME path (no finding; the no-CNAME notice only when
verbose), not the failed-lookup path. -/
theorem getCNAMEWithRetry_negative_retries (retries : Int) (h : retries < 0)
    (attempt : Nat → Except DnsErr String) (verbose : Bool) (order : PatternTable)
    (resolvesFn : String → Bool) (domain : String) :
    getCNAMEWithRetry retries attempt =
      { cname := "", err := none, attempts := 0, delays := [] } ∧
    (processDomain retries verbose order attempt resolvesFn domain).1 = [] ∧
    (processDomain retries verbose order attempt resolvesFn domain).2 =
      (if verbose then [Diag.noCNAME domain] else []) := by
  have hf : (retries + 1).toNat = 0 := by omega
  have h0 : getCNAMEWithRetry retries attempt =
      { cname := "", err := none, attempts := 0, delays := [] } := by
    unfold getCNAMEWithRetry
    rw [hf]
    rfl
  exact ⟨h0, by cases verbose <;> simp [processDomain, h0]⟩

/-- Witness for C9 at `retries = -1`: zero attempts, empty cname, no
error. -/
theorem getCNAMEWithRetry_negative_retries_witness :
    getCNAMEWithRetry (-1) (fun _ => Except.error (DnsErr.queryFailed "x")) =
      { cname := "", err := none, attempts := 0, delays := [] } :=
  (getCNAMEWithRetry_negative_retries (-1) (by decide)
    (fun _ => Except.error (DnsErr.queryFailed "x")) false vulnerablePatterns
    (fun _ => true) "d").1

/-- The dispatcher loop, from any draw index: the produced jobs' domains
are exactly the normalizations of the non-blank lines, in order, and every
job's server is drawn from the pool. -/
theorem dispatchFrom_spec (pool : List String) (pick : Nat → Nat)
    (hpool : pool ≠ []) :
    ∀ lines k,
      (dispatchFrom pool pick k lines).map Job.domain =
        lines.filterMap
          (fun l => if normalizeLine l = "" then none else some (normalizeLine l)) ∧
      ∀ j ∈ dispatchFrom pool pick k lines, j.server ∈ pool := by
  intro lines
  induction lines with
  | nil => intro k; exact ⟨rfl, by simp [dispatchFrom]⟩
  | cons line rest ih =>
    intro k
    simp only [normalizeLine] at ih
    by_cases h : goToLower (trimSpace line) = ""
    · refine ⟨?_, ?_⟩
      · simp only [dispatchFrom, h, if_true, List.filterMap_cons, normalizeLine]
        exact (ih k).1
      · intro j hj
        refine (ih k).2 j ?_
        simpa [dispatchFrom, h] using hj
    · refine ⟨?_, ?_⟩
      · simp only [dispatchFrom, h, if_false, List.filterMap_cons, normalizeLine,
          List.map_cons]
        exact congrArg _ (ih (k + 1)).1
      · intro j hj
        simp only [dispatchFrom, h, if_false, List.mem_cons] at hj
        rcases hj with rfl | hj
        · have hlen : 0 < pool.length := List.length_pos.mpr hpool
          have hlt : pick k % pool.length < pool.length := Nat.mod_lt _ hlen
          simp only []
          rw [List.getD_eq_getElem pool "" hlt]
          exact List.getElem_mem hlt
        · exact (ih (k + 1)).2 j hj

/-- C4: the dispatcher trims and lowercases each raw line, emits exactly
one job per line that is non-empty after normalization (with that
normalized domain, in input order) and none for lines that normalize to
empty; every emitted job's server comes from the configured resolver
pool. -/
theorem dispatchJobs_one_job_per_line (pool : List String) (pick : Nat → Nat)
    (lines : List String) (hpool : pool ≠ []) :
    (dispatchJobs pool pick lines).map Job.domain =
      lines.filterMap
        (fun l => if normalizeLine l = "" then none else some (normalizeLine l)) ∧
    ∀ j ∈ dispatchJobs pool pick lines, j.server ∈ pool :=
  dispatchFrom_spec pool pick hpool lines 0

/-- Witness for C4 on three lines (one of them whitespace-only) and a
two-resolver pool. -/
theorem dispatchJobs_one_job_per_line_witness :
    (dispatchJobs ["1.1.1.1", "8.8.8.8"] (fun _ => 1)
        ["  A.Com ", "   ", "b.org"]).map Job.domain = ["a.com", "b.org"] ∧
    ∀ j ∈ dispatchJobs ["1.1.1.1", "8.8.8.8"] (fun _ => 1) ["  A.Com ", "   ", "b.org"],
      j.server ∈ ["1.1.1.1", "8.8.8.8"] := by
  have h := dispatchJobs_one_job_per_line ["1.1.1.1", "8.8.8.8"] (fun _ => 1)
    ["  A.Com ", "   ", "b.org"] (by decide)
  exact ⟨h.1.trans (by decide), h.2⟩
